import Mathlib

/-!
Verification of the QA test-plan automation core: a shallow embedding of the
rich-text (ADF) document extractor and goal segmenter, the sheet customizer
(tab resolution, row allocation, template copying, value writes) and the
platform-tab pruner, together with theorems settling the specified
behavioural claims.
-/

namespace QaPlan

/- ### Generic string helpers (Python `str.join`, substring containment) -/

/-- Python `sep.join(parts)`: the parts interleaved with the separator. -/
def pyJoin (sep : String) : List String → String
  | [] => ""
  | [s] => s
  | s :: rest => s ++ sep ++ pyJoin sep rest

/-- Substring containment on character lists: `needle` occurs contiguously in `hay`. -/
def listContainsSub (hay needle : List Char) : Bool :=
  (List.range (hay.length + 1)).any (fun i => needle.isPrefixOf (hay.drop i))

/-- Python `str.lower()` (ASCII case folding suffices for the fixed tokens). -/
def pyLower (s : String) : String := ⟨s.data.map Char.toLower⟩

/-- Python `str.strip()`: drop leading and trailing whitespace. -/
def pyStrip (s : String) : String :=
  ⟨((s.data.dropWhile Char.isWhitespace).reverse.dropWhile Char.isWhitespace).reverse⟩

/-- Python `needle.lower() in hay.lower()`: case-insensitive substring test. -/
def containsCI (hay needle : String) : Bool :=
  listContainsSub (pyLower hay).data (pyLower needle).data

theorem str_eq_empty_iff (s : String) : s = "" ↔ s.length = 0 := by
  constructor
  · intro h
    subst h
    rfl
  · intro h
    cases s with
    | mk data =>
      cases data with
      | nil => rfl
      | cons c cs => simp [String.length] at h

theorem str_append_eq_empty_iff (a b : String) :
    a ++ b = "" ↔ a = "" ∧ b = "" := by
  rw [str_eq_empty_iff, str_eq_empty_iff, str_eq_empty_iff, String.length_append]
  omega

theorem pyJoin_empty_eq_empty_iff (l : List String) :
    pyJoin "" l = "" ↔ ∀ s ∈ l, s = "" := by
  induction l with
  | nil => simp [pyJoin]
  | cons s rest ih =>
    cases rest with
    | nil => simp [pyJoin]
    | cons t more =>
      simp only [pyJoin] at ih ⊢
      rw [str_append_eq_empty_iff, str_append_eq_empty_iff, ih]
      constructor
      · rintro ⟨⟨hs, -⟩, hrest⟩
        intro x hx
        rcases List.mem_cons.mp hx with rfl | hx
        · exact hs
        · exact hrest x hx
      · intro h
        exact ⟨⟨h s (by simp), rfl⟩, fun x hx => h x (by simp [hx])⟩

theorem pyJoin_empty_ne_empty_iff (l : List String) :
    pyJoin "" l ≠ "" ↔ ∃ s ∈ l, s ≠ "" := by
  rw [ne_eq, pyJoin_empty_eq_empty_iff]
  push_neg
  rfl

theorem pyJoin_eq_empty_iff_of_all_ne (sep : String) (l : List String)
    (h : ∀ s ∈ l, s ≠ "") : pyJoin sep l = "" ↔ l = [] := by
  cases l with
  | nil => simp [pyJoin]
  | cons s rest =>
    cases rest with
    | nil =>
      simp only [pyJoin]
      have := h s (by simp)
      simp [this]
    | cons t more =>
      simp only [pyJoin]
      rw [str_append_eq_empty_iff, str_append_eq_empty_iff]
      have := h s (by simp)
      simp [this]

/- ### Rich-text (ADF) document model — `src/jira_client.py` -/

/-- An ADF value as seen by the extractor: either a JSON-object node carrying a
`type`, an optional `text` field, an optional `attrs.level` and a `content`
list of children, or a non-dict (malformed) value carrying its Python `str()`
form. Mirrors the dictionaries consumed by `_extract_text_from_adf_node`. -/
inductive Adf where
  | node (ty : String) (tx : Option String) (level : Option Nat) (content : List Adf)
  | malformed (str : String)

/-- Whether a value is a non-dict (malformed) node. -/
def Adf.isMalformedB : Adf → Bool
  | .malformed _ => true
  | .node _ _ _ _ => false

/-- `'#' * level` for heading rendering. -/
def hashes (n : Nat) : String := String.mk (List.replicate n '#')

/-- The numbered rendering of ordered-list item texts: Python
`enumerate(content, start=1)` indexes every item, but only non-empty item
texts are emitted (`if item_text: items.append(f"{index}. {item_text}")`). -/
def numberItems (i : Nat) : List String → List String
  | [] => []
  | t :: ts =>
    if t ≠ "" then (toString i ++ ". " ++ t) :: numberItems (i + 1) ts
    else numberItems (i + 1) ts

mutual

/-- `JiraClient._extract_text_from_adf_node`: extract text from one ADF node.
A non-dict node returns `""` (the code's `if not isinstance(node, dict): return ''`).
For `bulletList`/`orderedList`, the code calls `item.get('content', [])` on each
child directly, so a non-dict child raises `AttributeError`, which the
surrounding `except` turns into `""` for the whole list node. -/
def extract_text_from_adf_node : Adf → String
  | .malformed _ => ""
  | .node ty tx lv ct =>
    if ty = "paragraph" then
      if ct.isEmpty then tx.getD "" else pyJoin "" (extractChildren ct)
    else if ty = "text" then tx.getD ""
    else if ty = "heading" then
      hashes (lv.getD 1) ++ " " ++
        (if ct.isEmpty then tx.getD "" else pyJoin "" (extractChildren ct))
    else if ty = "bulletList" then
      if ct.any Adf.isMalformedB then ""
      else pyJoin "\n" (((itemTexts ct).filter (· ≠ "")).map (fun t => "- " ++ t))
    else if ty = "orderedList" then
      if ct.any Adf.isMalformedB then ""
      else pyJoin "\n" (numberItems 1 (itemTexts ct))
    else if ty = "listItem" then pyJoin "" (extractChildren ct)
    else if ty = "hardBreak" then "\n"
    else
      if ct.isEmpty then tx.getD "" else pyJoin "" (extractChildren ct)

/-- The extractor mapped over a child list (the `''.join(... for child in content)` loops). -/
def extractChildren : List Adf → List String
  | [] => []
  | a :: as => extract_text_from_adf_node a :: extractChildren as

/-- Per-item text of a list node: `''.join(extract(child) for child in item.get('content', []))`. -/
def itemContentText : Adf → String
  | .node _ _ _ ic => pyJoin "" (extractChildren ic)
  | .malformed _ => ""

/-- The per-item texts of all children of a list node. -/
def itemTexts : List Adf → List String
  | [] => []
  | a :: as => itemContentText a :: itemTexts as

end

/-- `JiraClient._convert_adf_to_text`: a non-dict document degrades to its
`str()` form; otherwise the children of `content` are extracted and the
non-empty parts joined with newlines (`'\n'.join(filter(None, text_parts))`). -/
def convert_adf_to_text : Adf → String
  | .malformed s => s
  | .node _ _ _ ct =>
    if ct.isEmpty then ""
    else pyJoin "\n" ((extractChildren ct).filter (· ≠ ""))

/- ### Node predicates for the extraction claims -/

mutual

/-- Some node of the tree (itself included) satisfies `p` on its type/text. -/
def anyNodeB (p : String → Option String → Bool) : Adf → Bool
  | .malformed _ => false
  | .node ty tx _ ct => p ty tx || anyListB p ct

/-- Some node in the forest satisfies `p` on its type/text. -/
def anyListB (p : String → Option String → Bool) : List Adf → Bool
  | [] => false
  | a :: as => anyNodeB p a || anyListB p as

end

/-- A `text` node with non-empty content. -/
def isNonemptyTextP (ty : String) (tx : Option String) : Bool :=
  ty = "text" && tx.getD "" ≠ ""

/-- A `heading` node. -/
def isHeadingP (ty : String) (_ : Option String) : Bool := ty = "heading"

/-- A `hardBreak` node. -/
def isHardBreakP (ty : String) (_ : Option String) : Bool := ty = "hardBreak"

/-- The combined predicate: a node that can contribute characters on its own. -/
def isSourceP (ty : String) (tx : Option String) : Bool :=
  isNonemptyTextP ty tx || isHeadingP ty tx || isHardBreakP ty tx

/-- A node whose `type` is `listItem`. -/
def Adf.isListItemB : Adf → Bool
  | .node ty _ _ _ => ty = "listItem"
  | .malformed _ => false

mutual

/-- Well-formed ADF node: a real dict node; a `text` node has no children;
only `text` nodes carry a `text` field; `bulletList`/`orderedList` children
are `listItem` nodes; all children are well-formed. -/
def wfNode : Adf → Bool
  | .malformed _ => false
  | .node ty tx _ ct =>
    (if ty = "text" then ct.isEmpty else tx = none) &&
    (if ty = "bulletList" || ty = "orderedList" then ct.all Adf.isListItemB else true) &&
    wfList ct

/-- Well-formed forest. -/
def wfList : List Adf → Bool
  | [] => true
  | a :: as => wfNode a && wfList as

end

/- ### Supporting lemmas for the extraction characterization -/

theorem adf_sizeOf_pos (a : Adf) : 0 < sizeOf a := by
  cases a <;> simp_arith

theorem all_listItem_no_malformed {l : List Adf}
    (h : l.all Adf.isListItemB = true) : l.any Adf.isMalformedB = false := by
  induction l with
  | nil => rfl
  | cons a as ih =>
    simp only [List.all_cons, Bool.and_eq_true] at h
    simp only [List.any_cons, Bool.or_eq_false_iff]
    refine ⟨?_, ih h.2⟩
    cases a with
    | node ty tx lv ct => rfl
    | malformed s => simp [Adf.isListItemB] at h

theorem numberItems_all_ne (ts : List String) :
    ∀ i, ∀ x ∈ numberItems i ts, x ≠ "" := by
  induction ts with
  | nil => intro i x hx; simp [numberItems] at hx
  | cons t more ih =>
    intro i x hx
    rw [numberItems] at hx
    by_cases ht : t = ""
    · simp only [ht, ne_eq, not_true_eq_false, if_false] at hx
      exact ih (i + 1) x hx
    · simp only [ne_eq, ht, not_false_eq_true, if_true, List.mem_cons] at hx
      rcases hx with rfl | hx
      · intro h
        rw [str_append_eq_empty_iff, str_append_eq_empty_iff] at h
        exact absurd h.1.2 (by decide)
      · exact ih (i + 1) x hx

theorem numberItems_eq_nil_iff (ts : List String) :
    ∀ i, numberItems i ts = [] ↔ ∀ t ∈ ts, t = "" := by
  induction ts with
  | nil => intro i; simp [numberItems]
  | cons t more ih =>
    intro i
    rw [numberItems, List.forall_mem_cons]
    by_cases ht : t = ""
    · subst ht
      simp [ih]
    · simp [ht]

theorem itemTexts_src (n : Nat)
    (IH2 : ∀ l : List Adf, sizeOf l ≤ n → wfList l = true →
      ((∃ s ∈ extractChildren l, s ≠ "") ↔ anyListB isSourceP l = true)) :
    ∀ l : List Adf, sizeOf l ≤ n + 1 → l.all Adf.isListItemB = true →
      wfList l = true →
      ((∃ t ∈ itemTexts l, t ≠ "") ↔ anyListB isSourceP l = true) := by
  intro l
  induction l with
  | nil =>
    intro _ _ _
    simp [itemTexts, anyListB]
  | cons a as ih =>
    intro hsz hall hwf
    simp only [List.all_cons, Bool.and_eq_true] at hall
    obtain ⟨hla, hlas⟩ := hall
    rw [wfList] at hwf
    simp only [Bool.and_eq_true] at hwf
    obtain ⟨hwa, hwas⟩ := hwf
    have hszas : sizeOf as ≤ n + 1 := by
      have h1 : sizeOf (a :: as) = 1 + sizeOf a + sizeOf as := by simp_arith
      have := adf_sizeOf_pos a
      omega
    cases a with
    | malformed s => simp [Adf.isListItemB] at hla
    | node aty atx alv aic =>
      have hszic : sizeOf aic ≤ n := by
        have h1 : sizeOf (Adf.node aty atx alv aic :: as) =
            1 + sizeOf (Adf.node aty atx alv aic) + sizeOf as := by simp_arith
        have h2 : sizeOf (Adf.node aty atx alv aic) =
            1 + sizeOf aty + sizeOf atx + sizeOf alv + sizeOf aic := by simp_arith
        omega
      have haty : aty = "listItem" := by
        simpa [Adf.isListItemB] using hla
      have hwic : wfList aic = true := by
        rw [wfNode] at hwa
        simp only [Bool.and_eq_true] at hwa
        exact hwa.2
      rw [itemTexts, itemContentText, anyListB, anyNodeB, List.exists_mem_cons_iff]
      rw [pyJoin_empty_ne_empty_iff, IH2 aic hszic hwic, ih hszas hlas hwas]
      subst haty
      simp [isSourceP, isNonemptyTextP, isHeadingP, isHardBreakP]

theorem extract_src_aux (n : Nat) :
    (∀ a : Adf, sizeOf a ≤ n → wfNode a = true →
      (extract_text_from_adf_node a ≠ "" ↔ anyNodeB isSourceP a = true)) ∧
    (∀ l : List Adf, sizeOf l ≤ n → wfList l = true →
      ((∃ s ∈ extractChildren l, s ≠ "") ↔ anyListB isSourceP l = true)) := by
  induction n with
  | zero =>
    constructor
    · intro a ha
      exact absurd ha (by have := adf_sizeOf_pos a; omega)
    · intro l hl
      exact absurd hl (by cases l <;> simp_arith)
  | succ n ih =>
    obtain ⟨IH1, IH2⟩ := ih
    constructor
    · intro a ha hwf
      cases a with
      | malformed s =>
        rw [wfNode] at hwf
        exact absurd hwf (by simp)
      | node ty tx lv ct =>
        have hct : sizeOf ct ≤ n := by
          have h2 : sizeOf (Adf.node ty tx lv ct) =
              1 + sizeOf ty + sizeOf tx + sizeOf lv + sizeOf ct := by simp_arith
          omega
        rw [wfNode] at hwf
        simp only [Bool.and_eq_true] at hwf
        obtain ⟨⟨hwtx, hwli⟩, hwct⟩ := hwf
        have hCH := IH2 ct hct hwct
        by_cases hty1 : ty = "paragraph"
        · subst hty1
          rw [extract_text_from_adf_node, anyNodeB]
          simp only [String.reduceEq, reduceIte]
          have htx : tx = none := by simpa using hwtx
          subst htx
          cases hctE : ct.isEmpty with
          | true =>
            have : ct = [] := by simpa [List.isEmpty_iff] using hctE
            subst this
            simp [isSourceP, isNonemptyTextP, isHeadingP, isHardBreakP, anyListB]
          | false =>
            rw [if_neg (by simp [hctE])]
            rw [pyJoin_empty_ne_empty_iff, hCH]
            simp [isSourceP, isNonemptyTextP, isHeadingP, isHardBreakP]
        · by_cases hty2 : ty = "text"
          · subst hty2
            rw [extract_text_from_adf_node, anyNodeB]
            simp only [String.reduceEq, reduceIte]
            have hctn : ct = [] := by simpa [List.isEmpty_iff] using hwtx
            subst hctn
            simp [isSourceP, isNonemptyTextP, isHeadingP, isHardBreakP, anyListB]
          · by_cases hty3 : ty = "heading"
            · subst hty3
              rw [extract_text_from_adf_node, anyNodeB]
              simp only [String.reduceEq, reduceIte]
              constructor
              · intro _
                simp [isSourceP, isHeadingP]
              · intro _ h
                rw [str_append_eq_empty_iff, str_append_eq_empty_iff] at h
                exact absurd h.1.2 (by decide)
            · by_cases hty4 : ty = "bulletList"
              · subst hty4
                rw [extract_text_from_adf_node, anyNodeB]
                simp only [String.reduceEq, reduceIte]
                have hall : ct.all Adf.isListItemB = true := by simpa using hwli
                rw [if_neg (by simp [all_listItem_no_malformed hall])]
                simp only [ne_eq]
                rw [pyJoin_eq_empty_iff_of_all_ne "\n"
                  (((itemTexts ct).filter (· ≠ "")).map (fun t => "- " ++ t)) (by
                  intro x hx
                  rcases List.mem_map.mp hx with ⟨t, -, rfl⟩
                  intro h
                  rw [str_append_eq_empty_iff] at h
                  exact absurd h.1 (by decide))]
                rw [List.map_eq_nil_iff, List.filter_eq_nil_iff]
                have hinner := itemTexts_src n IH2 ct (by omega) hall hwct
                have hsp : isSourceP "bulletList" tx = false := by
                  simp [isSourceP, isNonemptyTextP, isHeadingP, isHardBreakP]
                rw [hsp, Bool.false_or, ← hinner]
                simp only [decide_eq_true_eq]
                push_neg
                rfl
              · by_cases hty5 : ty = "orderedList"
                · subst hty5
                  rw [extract_text_from_adf_node, anyNodeB]
                  simp only [String.reduceEq, reduceIte]
                  have hall : ct.all Adf.isListItemB = true := by simpa using hwli
                  rw [if_neg (by simp [all_listItem_no_malformed hall])]
                  simp only [ne_eq]
                  rw [pyJoin_eq_empty_iff_of_all_ne "\n"
                    (numberItems 1 (itemTexts ct)) (numberItems_all_ne _ 1)]
                  rw [numberItems_eq_nil_iff]
                  have hinner := itemTexts_src n IH2 ct (by omega) hall hwct
                  have hsp : isSourceP "orderedList" tx = false := by
                    simp [isSourceP, isNonemptyTextP, isHeadingP, isHardBreakP]
                  rw [hsp, Bool.false_or, ← hinner]
                  push_neg
                  rfl
                · by_cases hty6 : ty = "listItem"
                  · subst hty6
                    rw [extract_text_from_adf_node, anyNodeB]
                    simp only [String.reduceEq, reduceIte]
                    rw [pyJoin_empty_ne_empty_iff, hCH]
                    simp [isSourceP, isNonemptyTextP, isHeadingP, isHardBreakP]
                  · by_cases hty7 : ty = "hardBreak"
                    · subst hty7
                      rw [extract_text_from_adf_node, anyNodeB]
                      simp only [String.reduceEq, reduceIte]
                      constructor
                      · intro _
                        simp [isSourceP, isHardBreakP]
                      · intro _ h
                        exact absurd h (by decide)
                    · rw [extract_text_from_adf_node, anyNodeB]
                      rw [if_neg hty1, if_neg hty2, if_neg hty3, if_neg hty4,
                        if_neg hty5, if_neg hty6, if_neg hty7]
                      have htx : tx = none := by
                        simpa [if_neg hty2] using hwtx
                      subst htx
                      cases hctE : ct.isEmpty with
                      | true =>
                        have : ct = [] := by simpa [List.isEmpty_iff] using hctE
                        subst this
                        simp [isSourceP, isNonemptyTextP, isHeadingP, isHardBreakP,
                          anyListB, hty2, hty3, hty7]
                      | false =>
                        rw [if_neg (by simp [hctE])]
                        rw [pyJoin_empty_ne_empty_iff, hCH]
                        simp [isSourceP, isNonemptyTextP, isHeadingP, isHardBreakP,
                          hty2, hty3, hty7]
    · intro l hl hwf
      cases l with
      | nil =>
        simp [extractChildren, anyListB]
      | cons a as =>
        have hsz : sizeOf a ≤ n ∧ sizeOf as ≤ n := by
          have h1 : sizeOf (a :: as) = 1 + sizeOf a + sizeOf as := by simp_arith
          have h2 := adf_sizeOf_pos a
          have h3 : 0 < sizeOf as := by cases as <;> simp_arith
          omega
        rw [wfList] at hwf
        simp only [Bool.and_eq_true] at hwf
        obtain ⟨hwa, hwas⟩ := hwf
        have h1 := IH1 a hsz.1 hwa
        have h2 := IH2 as hsz.2 hwas
        rw [extractChildren, anyListB, List.exists_mem_cons_iff, h1, h2]
        simp

theorem anyB_or_aux (n : Nat) (p q : String → Option String → Bool) :
    (∀ a : Adf, sizeOf a ≤ n →
      anyNodeB (fun ty tx => p ty tx || q ty tx) a = (anyNodeB p a || anyNodeB q a)) ∧
    (∀ l : List Adf, sizeOf l ≤ n →
      anyListB (fun ty tx => p ty tx || q ty tx) l = (anyListB p l || anyListB q l)) := by
  induction n with
  | zero =>
    constructor
    · intro a ha
      exact absurd ha (by have := adf_sizeOf_pos a; omega)
    · intro l hl
      exact absurd hl (by cases l <;> simp_arith)
  | succ n ih =>
    obtain ⟨IH1, IH2⟩ := ih
    constructor
    · intro a ha
      cases a with
      | malformed s => rfl
      | node ty tx lv ct =>
        have hct : sizeOf ct ≤ n := by
          have h2 : sizeOf (Adf.node ty tx lv ct) =
              1 + sizeOf ty + sizeOf tx + sizeOf lv + sizeOf ct := by simp_arith
          omega
        rw [anyNodeB, anyNodeB, anyNodeB, IH2 ct hct]
        cases p ty tx <;> cases q ty tx <;>
          cases anyListB p ct <;> cases anyListB q ct <;> rfl
    · intro l hl
      cases l with
      | nil => rfl
      | cons a as =>
        have hsz : sizeOf a ≤ n ∧ sizeOf as ≤ n := by
          have h1 : sizeOf (a :: as) = 1 + sizeOf a + sizeOf as := by simp_arith
          have h2 := adf_sizeOf_pos a
          have h3 : 0 < sizeOf as := by cases as <;> simp_arith
          omega
        rw [anyListB, anyListB, anyListB, IH1 a hsz.1, IH2 as hsz.2]
        cases anyNodeB p a <;> cases anyNodeB q a <;>
          cases anyListB p as <;> cases anyListB q as <;> rfl

theorem anyListB_source_split (l : List Adf) :
    anyListB isSourceP l =
      (anyListB isNonemptyTextP l || anyListB isHeadingP l || anyListB isHardBreakP l) := by
  have hfun : isSourceP = fun ty tx =>
      (fun ty tx => isNonemptyTextP ty tx || isHeadingP ty tx) ty tx || isHardBreakP ty tx := by
    funext ty tx
    rfl
  rw [hfun, (anyB_or_aux (sizeOf l) _ isHardBreakP).2 l le_rfl]
  rw [(anyB_or_aux (sizeOf l) isNonemptyTextP isHeadingP).2 l le_rfl]

/- ### Recognized node types (for the extraction claims' scope) -/

/-- One of the node types the extractor dispatches on. -/
def isRecognizedP (ty : String) (_ : Option String) : Bool :=
  ty = "paragraph" || ty = "text" || ty = "heading" || ty = "bulletList" ||
    ty = "orderedList" || ty = "listItem" || ty = "hardBreak"

mutual

/-- Every node of the tree is a dict node satisfying `p` on its type/text. -/
def allNodesB (p : String → Option String → Bool) : Adf → Bool
  | .malformed _ => false
  | .node ty tx _ ct => p ty tx && allListNodesB p ct

/-- Every node in the forest satisfies `p`. -/
def allListNodesB (p : String → Option String → Bool) : List Adf → Bool
  | [] => true
  | a :: as => allNodesB p a && allListNodesB p as

end

/- ### Claims C5 and C6: the text extractor -/

/-- C5 counterexample: a document consisting of a single `heading` node with no
children uses only recognized node types and contains no `text` node at all,
yet `_convert_adf_to_text` renders it as `"# "`, which is non-empty. This
refutes the claimed equivalence: non-empty output does not require a
non-empty `text` node. -/
theorem c5_counterexample :
    allListNodesB isRecognizedP [Adf.node "heading" none none []] = true ∧
    anyListB isNonemptyTextP [Adf.node "heading" none none []] = false ∧
    convert_adf_to_text (Adf.node "doc" none none [Adf.node "heading" none none []]) = "# " ∧
    ¬(convert_adf_to_text (Adf.node "doc" none none [Adf.node "heading" none none []]) ≠ "" ↔
        anyListB isNonemptyTextP [Adf.node "heading" none none []] = true) := by
  refine ⟨by decide, by decide, by decide, ?_⟩
  intro h
  have := h.mp (by decide)
  exact absurd this (by decide)

/-- C5 (amended): for a well-formed document using only recognized node types
(`text` nodes carry the text and have no children, list nodes' children are
`listItem`s), extraction yields non-empty text iff the document contains a
`text` node with non-empty content, or a `heading` node, or a `hardBreak`
node — the latter two render as `"#… "` and `"\n"` regardless of any text. -/
theorem c5_extract_nonempty_iff (ct : List Adf)
    (_hrec : allListNodesB isRecognizedP ct = true)
    (hwf : wfList ct = true) :
    convert_adf_to_text (Adf.node "doc" none none ct) ≠ "" ↔
      (anyListB isNonemptyTextP ct = true ∨ anyListB isHeadingP ct = true ∨
        anyListB isHardBreakP ct = true) := by
  rw [convert_adf_to_text]
  cases hctE : ct.isEmpty with
  | true =>
    have : ct = [] := by simpa [List.isEmpty_iff] using hctE
    subst this
    simp [anyListB]
  | false =>
    rw [if_neg (by simp [hctE])]
    simp only [ne_eq]
    rw [pyJoin_eq_empty_iff_of_all_ne "\n" ((extractChildren ct).filter (· ≠ ""))
      (fun x hx => by
        have := List.of_mem_filter hx
        simpa using this)]
    rw [List.filter_eq_nil_iff]
    have haux := (extract_src_aux (sizeOf ct)).2 ct le_rfl hwf
    rw [anyListB_source_split] at haux
    constructor
    · intro h
      have : ∃ s ∈ extractChildren ct, s ≠ "" := by
        by_contra hno
        push_neg at hno
        exact h (fun a ha => by simpa using hno a ha)
      have := haux.mp this
      simp only [Bool.or_eq_true] at this
      tauto
    · intro h hforall
      have : (anyListB isNonemptyTextP ct || anyListB isHeadingP ct ||
          anyListB isHardBreakP ct) = true := by
        simp only [Bool.or_eq_true]
        tauto
      obtain ⟨s, hs, hne⟩ := haux.mpr this
      exact hne (by simpa using hforall s hs)

/-- Witness for C5 (amended) at a concrete well-formed document: a paragraph
holding one non-empty text node extracts to non-empty text. -/
theorem c5_extract_nonempty_iff_witness :
    convert_adf_to_text (Adf.node "doc" none none
      [Adf.node "paragraph" none none [Adf.node "text" (some "hi") none []]]) ≠ "" :=
  (c5_extract_nonempty_iff
      [Adf.node "paragraph" none none [Adf.node "text" (some "hi") none []]]
      (by decide) (by decide)).mpr (Or.inl (by decide))

/-- C6 counterexample: a non-dict node appearing as a child inside the
document degrades to the empty string, not to its `str()` form — the output
for a document whose only child is the malformed value `42` is `""`, in which
the string form `"42"` does not occur. -/
theorem c6_counterexample :
    convert_adf_to_text (Adf.node "doc" none none [Adf.malformed "42"]) = "" ∧
    ("42" : String) ≠ "" ∧
    listContainsSub (convert_adf_to_text
      (Adf.node "doc" none none [Adf.malformed "42"])).data ("42" : String).data = false := by
  refine ⟨by decide, by decide, by decide⟩

/-- C6 (amended): extraction is total (modelled as total functions); a
non-dict value passed as the whole document degrades to its `str()` form
(`_convert_adf_to_text`'s `if not isinstance(adf_document, dict)` branch),
while a non-dict value encountered as a child node degrades to the empty
string and is dropped from the output. -/
theorem c6_malformed_degrade (s : String) :
    convert_adf_to_text (Adf.malformed s) = s ∧
    extract_text_from_adf_node (Adf.malformed s) = "" :=
  ⟨rfl, rfl⟩

/- ### Sheet customizer model — `src/sheet_customizer.py` -/

/-- A tab (sheet) of the spreadsheet: its title and live numeric identifier,
as returned by the spreadsheet metadata (`sheet['properties']`). -/
structure Tab where
  title : String
  sheetId : Nat
deriving DecidableEq, Repr

/-- A grid range as used in `insertDimension`/`copyPaste` requests
(0-indexed, half-open rows and columns). -/
structure GridRange where
  sheetId : Nat
  startRowIndex : Nat
  endRowIndex : Nat
  startColumnIndex : Nat
  endColumnIndex : Nat
deriving DecidableEq, Repr

/-- The `pasteType` of a `copyPaste` request. -/
inductive PasteType where
  | pasteFormat
  | pasteDataValidation
  | pasteConditionalFormatting
  | pasteFormula
deriving DecidableEq, Repr

/-- One request inside a `batchUpdate` body. The constructors cover the
request kinds this code can issue (`insertDimension` on rows, `copyPaste`,
`deleteSheet`) together with kinds the Sheets API offers but the code never
builds: `addSheet` (tab creation) and `updateCellsTextFormatRuns` (rich-text
formatting such as a bold run over part of a cell). -/
inductive SheetRequest where
  | insertRows (sheetId : Nat) (startIndex : Nat) (endIndex : Nat)
  | copyPaste (source : GridRange) (destination : GridRange) (pasteType : PasteType)
  | deleteSheet (sheetId : Nat)
  | addSheet (title : String)
  | updateCellsTextFormatRuns (sheetId : Nat) (rowIndex : Nat) (columnIndex : Nat)
      (boldUntil : Nat)
deriving DecidableEq, Repr

/-- One remote call issued against the spreadsheet: a `batchUpdate` carrying a
request list, or a `values().update` writing a column of values with a given
`valueInputOption` into column B of the named tab at the given 1-indexed row
range. -/
inductive ApiCall where
  | batchUpdate (requests : List SheetRequest)
  | valuesUpdate (tab : String) (startRow : Nat) (endRow : Nat)
      (inputOption : String) (values : List String)
deriving DecidableEq, Repr

instance {α β : Type} [DecidableEq α] [DecidableEq β] : DecidableEq (Except α β) :=
  fun a b =>
    match a, b with
    | .ok x, .ok y =>
      decidable_of_iff (x = y) ⟨fun h => by rw [h], fun h => by injection h⟩
    | .error x, .error y =>
      decidable_of_iff (x = y) ⟨fun h => by rw [h], fun h => by injection h⟩
    | .ok _, .error _ => isFalse (fun h => Except.noConfusion h)
    | .error _, .ok _ => isFalse (fun h => Except.noConfusion h)

/-- The observable result of `customize_sheet_with_goals`: the mutating calls
issued in order, the error-log records (requested tab, available tab titles)
emitted on the unresolvable-tab path, and the outcome (`ok` with the number of
inserted rows, or `error` with the exception message). -/
structure CustomizeResult where
  calls : List ApiCall
  errorLog : List (String × List String)
  outcome : Except String Nat
deriving DecidableEq, Repr

/-- `SheetCustomizer._extract_platform_token`: the substring from the first
`[` through the first `]` when both exist in that order, else `""`. -/
def extract_platform_token (tabTitle : String) : String :=
  let l := tabTitle.data
  match l.findIdx? (· = '['), l.findIdx? (· = ']') with
  | some s, some e => if s < e then ⟨(l.drop s).take (e + 1 - s)⟩ else ""
  | _, _ => ""

/-- `SheetCustomizer._get_tab_id`: the `sheetId` of the first tab whose title
equals the requested name, if any. -/
def get_tab_id (tabs : List Tab) (tabName : String) : Option Nat :=
  (tabs.find? (fun t => t.title = tabName)).map (·.sheetId)

/-- `SheetCustomizer._find_platform_tab_by_token`: the first tab whose title
contains the (non-empty) token case-insensitively, with its title. -/
def find_platform_tab_by_token (tabs : List Tab) (token : String) :
    Option (String × Nat) :=
  (tabs.find? (fun t => token ≠ "" && containsCI t.title token)).map
    (fun t => (t.title, t.sheetId))

/-- Tab resolution as performed by `customize_sheet_with_goals`: exact title
match first; otherwise, if the requested title carries a bracketed token,
token-based containment search; no tab is ever created. -/
def resolveTab (tabs : List Tab) (tabName : String) : Option (String × Nat) :=
  match get_tab_id tabs tabName with
  | some i => some (tabName, i)
  | none =>
    let token := extract_platform_token tabName
    if token ≠ "" then find_platform_tab_by_token tabs token else none

/-- The per-platform starting row: the `start_row_by_platform` dict lookup
with default 28 (`.get(platform_token, 28)`). -/
def startRowFor (platformToken : String) : Nat :=
  if platformToken = "[monetate]" then 23
  else if platformToken = "[vwo]" then 26
  else if platformToken = "[convert]" then 27
  else if platformToken = "[optimizely]" then 28
  else 28

/-- `SheetCustomizer.customize_sheet_with_goals` over the spreadsheet's tab
list: filters blank goals, resolves the tab (raising with the available tab
titles logged when unresolvable), computes `rows_to_insert =
max(0, len(goals) - 3)`, issues the row insert (if positive), the batched
four-way template copy over columns C..L, and the RAW value write of the
goals into column B, returning the inserted-row count. -/
def customize_sheet_with_goals (tabs : List Tab) (tabName : String)
    (goals : List String) : CustomizeResult :=
  if goals.isEmpty then ⟨[], [], .ok 0⟩
  else
    let gs := (goals.map pyStrip).filter (· ≠ "")
    if gs.isEmpty then ⟨[], [], .ok 0⟩
    else
      match resolveTab tabs tabName with
      | none =>
        ⟨[], [(tabName, tabs.map (·.title))],
          .error ("Tab '" ++ tabName ++ "' not found in sheet")⟩
      | some (name, tabId) =>
        let platformToken := pyLower (extract_platform_token name)
        let startRow := startRowFor platformToken
        let numGoals := gs.length
        let rowsToInsert := numGoals - 3
        let insertCalls : List ApiCall :=
          if rowsToInsert > 0 then
            [.batchUpdate [.insertRows tabId (startRow - 1 + 3)
              (startRow - 1 + 3 + rowsToInsert)]]
          else []
        let copySource : GridRange := ⟨tabId, startRow - 1, startRow, 2, 12⟩
        let copyDestination : GridRange :=
          ⟨tabId, startRow - 1, startRow - 1 + numGoals, 2, 12⟩
        let copyCall : ApiCall := .batchUpdate
          [.copyPaste copySource copyDestination .pasteFormat,
           .copyPaste copySource copyDestination .pasteDataValidation,
           .copyPaste copySource copyDestination .pasteConditionalFormatting,
           .copyPaste copySource copyDestination .pasteFormula]
        let valueCall : ApiCall :=
          .valuesUpdate name startRow (startRow + numGoals - 1) "RAW" gs
        ⟨insertCalls ++ [copyCall, valueCall], [], .ok rowsToInsert⟩

/- ### Tab pruning model — `prune_platform_tabs` -/

/-- The fixed list of recognized platform tokens, in the code's scan order. -/
def platform_tokens : List String :=
  ["[Optimizely]", "[Convert]", "[VWO]", "[Monetate]"]

/-- The selected platform's token: the first recognized token contained
case-insensitively in the selected tab title, if any. -/
def selectedTokenOf (selectedPlatformTab : String) : Option String :=
  platform_tokens.find? (fun tk => containsCI selectedPlatformTab tk)

/-- Whether a tab is identified as the selected platform: exact title match,
or title containing the selected token case-insensitively. -/
def matchesSelected (selectedPlatformTab : String) (t : Tab) : Bool :=
  t.title = selectedPlatformTab ||
    (match selectedTokenOf selectedPlatformTab with
     | some tk => containsCI t.title tk
     | none => false)

/-- The tabs `prune_platform_tabs` schedules for deletion: not the selected
tab nor `Complexity & Risk`, recognized as a platform tab by token
containment, and not matching the selected platform's token. -/
def pruneScheduled (tabs : List Tab) (selectedPlatformTab : String) : List Tab :=
  tabs.filter (fun t =>
    !(t.title = selectedPlatformTab || t.title = "Complexity & Risk") &&
    (platform_tokens.any (fun tk => containsCI t.title tk)) &&
    !(match selectedTokenOf selectedPlatformTab with
      | some tk => containsCI t.title tk
      | none => false))

/-- The observable result of `prune_platform_tabs`: the mutating calls issued
and the returned boolean (the modelled code never raises: HTTP transport
errors are outside the model). -/
structure PruneResult where
  calls : List ApiCall
  outcome : Bool
deriving DecidableEq, Repr

/-- `SheetCustomizer.prune_platform_tabs`: abort as a success no-op when the
selected platform tab cannot be located at all; otherwise delete all other
recognized platform tabs in one batched request (an empty schedule is a
success no-op). -/
def prune_platform_tabs (tabs : List Tab) (selectedPlatformTab : String) :
    PruneResult :=
  if !(tabs.any (matchesSelected selectedPlatformTab)) then ⟨[], true⟩
  else
    let ds := pruneScheduled tabs selectedPlatformTab
    if ds.isEmpty then ⟨[], true⟩
    else ⟨[.batchUpdate (ds.map (fun t => .deleteSheet t.sheetId))], true⟩

/- ### Observations over issued calls -/

/-- All `insertDimension` row-insert requests across all issued calls, as
(sheetId, startIndex, endIndex) triples. -/
def insertRowsReqs (calls : List ApiCall) : List (Nat × Nat × Nat) :=
  calls.flatMap (fun c =>
    match c with
    | .batchUpdate rs => rs.filterMap (fun r =>
        match r with
        | .insertRows a b c => some (a, b, c)
        | _ => none)
    | _ => [])

/-- All `copyPaste` requests across all issued calls. -/
def copyPasteReqs (calls : List ApiCall) : List (GridRange × GridRange × PasteType) :=
  calls.flatMap (fun c =>
    match c with
    | .batchUpdate rs => rs.filterMap (fun r =>
        match r with
        | .copyPaste s d p => some (s, d, p)
        | _ => none)
    | _ => [])

/-- All `values().update` calls, as (tab, startRow, endRow, inputOption, values). -/
def valuesUpdates (calls : List ApiCall) :
    List (String × Nat × Nat × String × List String) :=
  calls.filterMap (fun c =>
    match c with
    | .valuesUpdate t a b o v => some (t, a, b, o, v)
    | _ => none)

/-- All rich-text formatting requests (the kind a bold-first-line step would
issue) across all issued calls. -/
def textFormatReqs (calls : List ApiCall) : List (Nat × Nat × Nat × Nat) :=
  calls.flatMap (fun c =>
    match c with
    | .batchUpdate rs => rs.filterMap (fun r =>
        match r with
        | .updateCellsTextFormatRuns a b c d => some (a, b, c, d)
        | _ => none)
    | _ => [])

/-- All `addSheet` (tab creation) requests across all issued calls. -/
def addSheetReqs (calls : List ApiCall) : List String :=
  calls.flatMap (fun c =>
    match c with
    | .batchUpdate rs => rs.filterMap (fun r =>
        match r with
        | .addSheet t => some t
        | _ => none)
    | _ => [])

/-- All `deleteSheet` requests across all issued calls, as sheet ids. -/
def deleteReqs (calls : List ApiCall) : List Nat :=
  calls.flatMap (fun c =>
    match c with
    | .batchUpdate rs => rs.filterMap (fun r =>
        match r with
        | .deleteSheet i => some i
        | _ => none)
    | _ => [])

/- ### Shape of the success path of `customize_sheet_with_goals` -/

theorem startRowFor_pos (tok : String) : 1 ≤ startRowFor tok := by
  rw [startRowFor]
  split
  · omega
  · split
    · omega
    · split
      · omega
      · split <;> omega

theorem customize_success_shape (tabs : List Tab) (tabName : String)
    (goals : List String) (name : String) (tabId : Nat)
    (hres : resolveTab tabs tabName = some (name, tabId))
    (hgs : ((goals.map pyStrip).filter (· ≠ "")) ≠ []) :
    customize_sheet_with_goals tabs tabName goals =
      ⟨(if ((goals.map pyStrip).filter (· ≠ "")).length - 3 > 0 then
          [.batchUpdate [.insertRows tabId
            (startRowFor (pyLower (extract_platform_token name)) - 1 + 3)
            (startRowFor (pyLower (extract_platform_token name)) - 1 + 3 +
              (((goals.map pyStrip).filter (· ≠ "")).length - 3))]]
        else []) ++
        [.batchUpdate
          [.copyPaste
            ⟨tabId, startRowFor (pyLower (extract_platform_token name)) - 1,
              startRowFor (pyLower (extract_platform_token name)), 2, 12⟩
            ⟨tabId, startRowFor (pyLower (extract_platform_token name)) - 1,
              startRowFor (pyLower (extract_platform_token name)) - 1 +
                ((goals.map pyStrip).filter (· ≠ "")).length, 2, 12⟩
            .pasteFormat,
           .copyPaste
            ⟨tabId, startRowFor (pyLower (extract_platform_token name)) - 1,
              startRowFor (pyLower (extract_platform_token name)), 2, 12⟩
            ⟨tabId, startRowFor (pyLower (extract_platform_token name)) - 1,
              startRowFor (pyLower (extract_platform_token name)) - 1 +
                ((goals.map pyStrip).filter (· ≠ "")).length, 2, 12⟩
            .pasteDataValidation,
           .copyPaste
            ⟨tabId, startRowFor (pyLower (extract_platform_token name)) - 1,
              startRowFor (pyLower (extract_platform_token name)), 2, 12⟩
            ⟨tabId, startRowFor (pyLower (extract_platform_token name)) - 1,
              startRowFor (pyLower (extract_platform_token name)) - 1 +
                ((goals.map pyStrip).filter (· ≠ "")).length, 2, 12⟩
            .pasteConditionalFormatting,
           .copyPaste
            ⟨tabId, startRowFor (pyLower (extract_platform_token name)) - 1,
              startRowFor (pyLower (extract_platform_token name)), 2, 12⟩
            ⟨tabId, startRowFor (pyLower (extract_platform_token name)) - 1,
              startRowFor (pyLower (extract_platform_token name)) - 1 +
                ((goals.map pyStrip).filter (· ≠ "")).length, 2, 12⟩
            .pasteFormula],
         .valuesUpdate name (startRowFor (pyLower (extract_platform_token name)))
           (startRowFor (pyLower (extract_platform_token name)) +
             ((goals.map pyStrip).filter (· ≠ "")).length - 1) "RAW"
           ((goals.map pyStrip).filter (· ≠ ""))],
       [], .ok (((goals.map pyStrip).filter (· ≠ "")).length - 3)⟩ := by
  have hgoals : goals.isEmpty = false := by
    cases goals with
    | nil => simp at hgs
    | cons g gr => rfl
  have hgsE : ((goals.map pyStrip).filter (· ≠ "")).isEmpty = false := by
    cases hE : ((goals.map pyStrip).filter (· ≠ "")) with
    | nil => exact absurd hE hgs
    | cons x xs => rfl
  rw [customize_sheet_with_goals]
  simp only [hgoals, Bool.false_eq_true, if_false, hgsE, hres]

theorem filter_trim_of_all_ne (goals : List String)
    (hall : ∀ g ∈ goals, pyStrip g ≠ "") :
    (goals.map pyStrip).filter (· ≠ "") = goals.map pyStrip := by
  rw [List.filter_eq_self]
  intro x hx
  rcases List.mem_map.mp hx with ⟨g, hg, rfl⟩
  simpa using hall g hg

/-- C4: for a resolved tab and an all-non-blank goal list of length `n`,
`customize_sheet_with_goals` returns `max(0, n - 3)` (natural subtraction);
with `n ≤ 3` it issues no row-insert request at all, and with `n > 3` it
issues exactly one row-insert request of size `n - 3` starting at 0-indexed
row `startRow + 2` (1-indexed `startRow + 3`, immediately after the 3
placeholder rows). -/
theorem c4_row_insertion (tabs : List Tab) (tabName : String)
    (goals : List String) (name : String) (tabId : Nat)
    (hall : ∀ g ∈ goals, pyStrip g ≠ "")
    (hres : resolveTab tabs tabName = some (name, tabId)) :
    (customize_sheet_with_goals tabs tabName goals).outcome =
      .ok (goals.length - 3) ∧
    (goals.length ≤ 3 →
      insertRowsReqs (customize_sheet_with_goals tabs tabName goals).calls = []) ∧
    (3 < goals.length →
      insertRowsReqs (customize_sheet_with_goals tabs tabName goals).calls =
        [(tabId, startRowFor (pyLower (extract_platform_token name)) + 2,
          startRowFor (pyLower (extract_platform_token name)) + 2 +
            (goals.length - 3))]) := by
  cases goals with
  | nil =>
    refine ⟨rfl, fun _ => rfl, fun h => absurd h (by simp)⟩
  | cons g gr =>
    have hfil := filter_trim_of_all_ne (g :: gr) hall
    have hgs : ((g :: gr).map pyStrip).filter (· ≠ "") ≠ [] := by
      rw [hfil]
      simp
    have hlen : (((g :: gr).map pyStrip).filter (· ≠ "")).length =
        (g :: gr).length := by
      rw [hfil, List.length_map]
    rw [customize_success_shape tabs tabName (g :: gr) name tabId hres hgs]
    rw [hlen]
    have hsr := startRowFor_pos (pyLower (extract_platform_token name))
    refine ⟨rfl, ?_, ?_⟩
    · intro h3
      have : ¬((g :: gr).length - 3 > 0) := by omega
      rw [if_neg this]
      simp [insertRowsReqs]
    · intro h3
      have hpos : (g :: gr).length - 3 > 0 := by omega
      rw [if_pos hpos]
      simp only [insertRowsReqs, List.flatMap_cons, List.flatMap_nil,
        List.filterMap_cons, List.filterMap_nil, List.append_nil, List.nil_append]
      have h1 : startRowFor (pyLower (extract_platform_token name)) - 1 + 3 =
          startRowFor (pyLower (extract_platform_token name)) + 2 := by omega
      rw [h1]
      simp

/-- Witness for C4 at the spec's scenario B: five goals against a Monetate
tab (start row 23) yield exactly one insert-rows request of size 2 at
0-indexed rows [25, 27), and the call returns 2. -/
theorem c4_row_insertion_witness :
    (customize_sheet_with_goals [⟨"[Monetate] QA Pass 1", 3⟩]
      "[Monetate] QA Pass 1" ["a", "b", "c", "d", "e"]).outcome = .ok 2 ∧
    insertRowsReqs (customize_sheet_with_goals [⟨"[Monetate] QA Pass 1", 3⟩]
      "[Monetate] QA Pass 1" ["a", "b", "c", "d", "e"]).calls = [(3, 25, 27)] := by
  have h := c4_row_insertion [⟨"[Monetate] QA Pass 1", 3⟩] "[Monetate] QA Pass 1"
    ["a", "b", "c", "d", "e"] "[Monetate] QA Pass 1" 3 (by decide) (by decide)
  refine ⟨h.1, ?_⟩
  have h2 := h.2.2 (by decide)
  rw [h2]
  decide

/-- C3: for a resolved tab and a non-blank goal list, the template copy is
taken from the single row at `startRow` (0-indexed row span
`[startRow - 1, startRow)`) over the fixed column span `[2, 12)` (0-indexed
half-open, i.e. columns C through L), pasted to the destination spanning all
`n` goal rows over the same columns, and is issued as one `batchUpdate`
containing exactly the four paste kinds (format, data validation,
conditional formatting, formula); no other copy-paste request is issued. -/
theorem c3_template_copy (tabs : List Tab) (tabName : String)
    (goals : List String) (name : String) (tabId : Nat)
    (hall : ∀ g ∈ goals, pyStrip g ≠ "") (hne : goals ≠ [])
    (hres : resolveTab tabs tabName = some (name, tabId)) :
    ApiCall.batchUpdate
      [.copyPaste
        ⟨tabId, startRowFor (pyLower (extract_platform_token name)) - 1,
          startRowFor (pyLower (extract_platform_token name)), 2, 12⟩
        ⟨tabId, startRowFor (pyLower (extract_platform_token name)) - 1,
          startRowFor (pyLower (extract_platform_token name)) - 1 + goals.length,
          2, 12⟩ .pasteFormat,
       .copyPaste
        ⟨tabId, startRowFor (pyLower (extract_platform_token name)) - 1,
          startRowFor (pyLower (extract_platform_token name)), 2, 12⟩
        ⟨tabId, startRowFor (pyLower (extract_platform_token name)) - 1,
          startRowFor (pyLower (extract_platform_token name)) - 1 + goals.length,
          2, 12⟩ .pasteDataValidation,
       .copyPaste
        ⟨tabId, startRowFor (pyLower (extract_platform_token name)) - 1,
          startRowFor (pyLower (extract_platform_token name)), 2, 12⟩
        ⟨tabId, startRowFor (pyLower (extract_platform_token name)) - 1,
          startRowFor (pyLower (extract_platform_token name)) - 1 + goals.length,
          2, 12⟩ .pasteConditionalFormatting,
       .copyPaste
        ⟨tabId, startRowFor (pyLower (extract_platform_token name)) - 1,
          startRowFor (pyLower (extract_platform_token name)), 2, 12⟩
        ⟨tabId, startRowFor (pyLower (extract_platform_token name)) - 1,
          startRowFor (pyLower (extract_platform_token name)) - 1 + goals.length,
          2, 12⟩ .pasteFormula] ∈
      (customize_sheet_with_goals tabs tabName goals).calls ∧
    copyPasteReqs (customize_sheet_with_goals tabs tabName goals).calls =
      [(⟨tabId, startRowFor (pyLower (extract_platform_token name)) - 1,
          startRowFor (pyLower (extract_platform_token name)), 2, 12⟩,
        ⟨tabId, startRowFor (pyLower (extract_platform_token name)) - 1,
          startRowFor (pyLower (extract_platform_token name)) - 1 + goals.length,
          2, 12⟩, .pasteFormat),
       (⟨tabId, startRowFor (pyLower (extract_platform_token name)) - 1,
          startRowFor (pyLower (extract_platform_token name)), 2, 12⟩,
        ⟨tabId, startRowFor (pyLower (extract_platform_token name)) - 1,
          startRowFor (pyLower (extract_platform_token name)) - 1 + goals.length,
          2, 12⟩, .pasteDataValidation),
       (⟨tabId, startRowFor (pyLower (extract_platform_token name)) - 1,
          startRowFor (pyLower (extract_platform_token name)), 2, 12⟩,
        ⟨tabId, startRowFor (pyLower (extract_platform_token name)) - 1,
          startRowFor (pyLower (extract_platform_token name)) - 1 + goals.length,
          2, 12⟩, .pasteConditionalFormatting),
       (⟨tabId, startRowFor (pyLower (extract_platform_token name)) - 1,
          startRowFor (pyLower (extract_platform_token name)), 2, 12⟩,
        ⟨tabId, startRowFor (pyLower (extract_platform_token name)) - 1,
          startRowFor (pyLower (extract_platform_token name)) - 1 + goals.length,
          2, 12⟩, .pasteFormula)] := by
  have hfil := filter_trim_of_all_ne goals hall
  have hgs : ((goals.map pyStrip).filter (· ≠ "")) ≠ [] := by
    rw [hfil]
    simpa using hne
  have hlen : (((goals.map pyStrip).filter (· ≠ "")).length = goals.length) := by
    rw [hfil, List.length_map]
  rw [customize_success_shape tabs tabName goals name tabId hres hgs, hlen]
  constructor
  · by_cases hpos : goals.length - 3 > 0
    · rw [if_pos hpos]
      simp
    · rw [if_neg hpos]
      simp
  · by_cases hpos : goals.length - 3 > 0
    · rw [if_pos hpos]
      simp [copyPasteReqs]
    · rw [if_neg hpos]
      simp [copyPasteReqs]

/-- Witness for C3 at the spec's scenario B: with five goals on a Monetate
tab, all four paste kinds are copied from 0-indexed row span [22, 23),
columns [2, 12), to rows [22, 27) in a single batch. -/
theorem c3_template_copy_witness :
    copyPasteReqs (customize_sheet_with_goals [⟨"[Monetate] QA Pass 1", 3⟩]
      "[Monetate] QA Pass 1" ["a", "b", "c", "d", "e"]).calls =
      [(⟨3, 22, 23, 2, 12⟩, ⟨3, 22, 27, 2, 12⟩, .pasteFormat),
       (⟨3, 22, 23, 2, 12⟩, ⟨3, 22, 27, 2, 12⟩, .pasteDataValidation),
       (⟨3, 22, 23, 2, 12⟩, ⟨3, 22, 27, 2, 12⟩, .pasteConditionalFormatting),
       (⟨3, 22, 23, 2, 12⟩, ⟨3, 22, 27, 2, 12⟩, .pasteFormula)] := by
  have h := c3_template_copy [⟨"[Monetate] QA Pass 1", 3⟩] "[Monetate] QA Pass 1"
    ["a", "b", "c", "d", "e"] "[Monetate] QA Pass 1" 3 (by decide) (by decide)
    (by decide)
  rw [h.2]
  decide

/- ### Claim C2: what is written to column B -/

/-- C2 counterexample: at the spec's scenario A (two single-line goals on the
Optimizely tab, written to rows 28 and 29 of column B), the issued calls are
exactly a four-way template copy and one plain RAW value write; no rich-text
formatting request of any kind is issued, so column B does not receive "bold
first line" formatting for any goal row. -/
theorem c2_counterexample :
    customize_sheet_with_goals [⟨"[Optimizely] QA Pass 1", 7⟩]
      "[Optimizely] QA Pass 1" ["Improve load time", "Reduce errors"] =
      ⟨[.batchUpdate
          [.copyPaste ⟨7, 27, 28, 2, 12⟩ ⟨7, 27, 29, 2, 12⟩ .pasteFormat,
           .copyPaste ⟨7, 27, 28, 2, 12⟩ ⟨7, 27, 29, 2, 12⟩ .pasteDataValidation,
           .copyPaste ⟨7, 27, 28, 2, 12⟩ ⟨7, 27, 29, 2, 12⟩ .pasteConditionalFormatting,
           .copyPaste ⟨7, 27, 28, 2, 12⟩ ⟨7, 27, 29, 2, 12⟩ .pasteFormula],
        .valuesUpdate "[Optimizely] QA Pass 1" 28 29 "RAW"
          ["Improve load time", "Reduce errors"]],
       [], .ok 0⟩ ∧
    valuesUpdates (customize_sheet_with_goals [⟨"[Optimizely] QA Pass 1", 7⟩]
      "[Optimizely] QA Pass 1" ["Improve load time", "Reduce errors"]).calls ≠ [] ∧
    textFormatReqs (customize_sheet_with_goals [⟨"[Optimizely] QA Pass 1", 7⟩]
      "[Optimizely] QA Pass 1" ["Improve load time", "Reduce errors"]).calls = [] := by
  refine ⟨by decide, by decide, by decide⟩

/-- C2 (amended): for every resolved tab and non-blank goal list, column B
receives the goals as a single plain value write (`valueInputOption='RAW'`,
one row per goal, whitespace-stripped) over rows
`[startRow, startRow + n - 1]`, and no rich-text (bold) formatting request
is ever issued for any goal row. -/
theorem c2_plain_value_write (tabs : List Tab) (tabName : String)
    (goals : List String) (name : String) (tabId : Nat)
    (hall : ∀ g ∈ goals, pyStrip g ≠ "") (hne : goals ≠ [])
    (hres : resolveTab tabs tabName = some (name, tabId)) :
    valuesUpdates (customize_sheet_with_goals tabs tabName goals).calls =
      [(name, startRowFor (pyLower (extract_platform_token name)),
        startRowFor (pyLower (extract_platform_token name)) + goals.length - 1,
        "RAW", goals.map pyStrip)] ∧
    textFormatReqs (customize_sheet_with_goals tabs tabName goals).calls = [] := by
  have hfil := filter_trim_of_all_ne goals hall
  have hgs : ((goals.map pyStrip).filter (· ≠ "")) ≠ [] := by
    rw [hfil]
    simpa using hne
  have hlen : (((goals.map pyStrip).filter (· ≠ "")).length = goals.length) := by
    rw [hfil, List.length_map]
  rw [customize_success_shape tabs tabName goals name tabId hres hgs, hlen, hfil]
  constructor
  · by_cases hpos : goals.length - 3 > 0
    · rw [if_pos hpos]
      simp [valuesUpdates]
    · rw [if_neg hpos]
      simp [valuesUpdates]
  · by_cases hpos : goals.length - 3 > 0
    · rw [if_pos hpos]
      simp [textFormatReqs]
    · rw [if_neg hpos]
      simp [textFormatReqs]

/-- Witness for C2 (amended) at the spec's scenario A: the two goals are
written RAW to rows 28..29 of the Optimizely tab and no formatting request
is issued. -/
theorem c2_plain_value_write_witness :
    valuesUpdates (customize_sheet_with_goals [⟨"[Optimizely] QA Pass 1", 7⟩]
      "[Optimizely] QA Pass 1" ["Improve load time", "Reduce errors"]).calls =
      [("[Optimizely] QA Pass 1", 28, 29, "RAW",
        ["Improve load time", "Reduce errors"])] ∧
    textFormatReqs (customize_sheet_with_goals [⟨"[Optimizely] QA Pass 1", 7⟩]
      "[Optimizely] QA Pass 1" ["Improve load time", "Reduce errors"]).calls = [] := by
  have h := c2_plain_value_write [⟨"[Optimizely] QA Pass 1", 7⟩]
    "[Optimizely] QA Pass 1" ["Improve load time", "Reduce errors"]
    "[Optimizely] QA Pass 1" 7 (by decide) (by decide) (by decide)
  refine ⟨?_, h.2⟩
  rw [h.1]
  decide

/- ### Claim C10: blank goals short-circuit; written goals are stripped -/

/-- C10: if every goal is empty or whitespace-only (including the empty
list), `customize_sheet_with_goals` returns 0 and issues no spreadsheet
mutation at all — no call of any kind and no error; and in every case, any
value write that is issued carries exactly the whitespace-stripped non-blank
goals. -/
theorem c10_blank_goals (tabs : List Tab) (tabName : String)
    (goals : List String) :
    ((∀ g ∈ goals, pyStrip g = "") →
      customize_sheet_with_goals tabs tabName goals = ⟨[], [], .ok 0⟩) ∧
    (∀ v ∈ valuesUpdates (customize_sheet_with_goals tabs tabName goals).calls,
      v.2.2.2.2 = (goals.map pyStrip).filter (· ≠ "")) := by
  constructor
  · intro hblank
    cases goals with
    | nil => rfl
    | cons g gr =>
      have hgs : (((g :: gr).map pyStrip).filter (· ≠ "")) = [] := by
        rw [List.filter_eq_nil_iff]
        intro x hx
        rcases List.mem_map.mp hx with ⟨y, hy, rfl⟩
        simp [hblank y hy]
      rw [customize_sheet_with_goals]
      have hE : (((g :: gr).map pyStrip).filter (· ≠ "")).isEmpty = true := by
        rw [hgs]
        rfl
      simp only [List.isEmpty_cons, Bool.false_eq_true, if_false, hE, if_true]
  · intro v hv
    rw [customize_sheet_with_goals] at hv
    by_cases h1 : goals.isEmpty
    · rw [if_pos h1] at hv
      simp [valuesUpdates] at hv
    · rw [if_neg h1] at hv
      by_cases h2 : ((goals.map pyStrip).filter (· ≠ "")).isEmpty
      · rw [if_pos h2] at hv
        simp [valuesUpdates] at hv
      · rw [if_neg h2] at hv
        cases hres : resolveTab tabs tabName with
        | none =>
          rw [hres] at hv
          simp [valuesUpdates] at hv
        | some p =>
          rw [hres] at hv
          by_cases hpos : ((goals.map pyStrip).filter (· ≠ "")).length - 3 > 0
          · simp only [if_pos hpos, valuesUpdates, List.filterMap_append,
              List.filterMap_cons, List.filterMap_nil] at hv
            simp at hv
            subst hv
            simp
          · simp only [if_neg hpos, valuesUpdates, List.filterMap_append,
              List.filterMap_cons, List.filterMap_nil] at hv
            simp at hv
            subst hv
            simp

/-- Witness for C10: a list of a whitespace-only and an empty goal yields a
zero result with no calls at all. -/
theorem c10_blank_goals_witness :
    customize_sheet_with_goals [⟨"[Optimizely] QA Pass 1", 7⟩]
      "[Optimizely] QA Pass 1" ["   ", ""] = ⟨[], [], .ok 0⟩ :=
  (c10_blank_goals [⟨"[Optimizely] QA Pass 1", 7⟩] "[Optimizely] QA Pass 1"
    ["   ", ""]).1 (by decide)

/- ### Claim C7: unresolvable destination tab -/

/-- C7: when no tab matches the requested title exactly and no tab's title
contains its bracketed token case-insensitively, the customization issues no
mutating call at all (in particular no tab is created), raises (the outcome
is an error naming the tab), and logs the failure together with the full
list of available tab titles. -/
theorem c7_unresolvable_tab (tabs : List Tab) (tabName : String)
    (goals : List String)
    (hexact : ∀ t ∈ tabs, t.title ≠ tabName)
    (htoken : ∀ t ∈ tabs, ¬(extract_platform_token tabName ≠ "" ∧
        containsCI t.title (extract_platform_token tabName) = true))
    (hgs : ((goals.map pyStrip).filter (· ≠ "")) ≠ []) :
    customize_sheet_with_goals tabs tabName goals =
      ⟨[], [(tabName, tabs.map (·.title))],
        .error ("Tab '" ++ tabName ++ "' not found in sheet")⟩ ∧
    addSheetReqs (customize_sheet_with_goals tabs tabName goals).calls = [] := by
  have hres : resolveTab tabs tabName = none := by
    rw [resolveTab]
    have hget : get_tab_id tabs tabName = none := by
      rw [get_tab_id, List.find?_eq_none.mpr]
      · rfl
      · intro t ht
        simp [hexact t ht]
    rw [hget]
    by_cases htk : extract_platform_token tabName = ""
    · simp [htk]
    · rw [if_pos htk]
      rw [find_platform_tab_by_token, List.find?_eq_none.mpr]
      · rfl
      · intro t ht
        have := htoken t ht
        simp only [Bool.and_eq_true, decide_eq_true_eq]
        intro hcontra
        exact this ⟨hcontra.1, hcontra.2⟩
  have hgoals : goals.isEmpty = false := by
    cases goals with
    | nil => simp at hgs
    | cons g gr => rfl
  have hgsE : ((goals.map pyStrip).filter (· ≠ "")).isEmpty = false := by
    cases hE : ((goals.map pyStrip).filter (· ≠ "")) with
    | nil => exact absurd hE hgs
    | cons x xs => rfl
  have hmain : customize_sheet_with_goals tabs tabName goals =
      ⟨[], [(tabName, tabs.map (·.title))],
        .error ("Tab '" ++ tabName ++ "' not found in sheet")⟩ := by
    rw [customize_sheet_with_goals]
    simp only [hgoals, Bool.false_eq_true, if_false, hgsE, hres]
  exact ⟨hmain, by rw [hmain]; rfl⟩

/-- Witness for C7: requesting the Optimizely tab against a sheet holding
only the auxiliary tab fails with the available titles logged and no call
issued. -/
theorem c7_unresolvable_tab_witness :
    customize_sheet_with_goals [⟨"Complexity & Risk", 0⟩]
      "[Optimizely] QA Pass 1" ["g"] =
      ⟨[], [("[Optimizely] QA Pass 1", ["Complexity & Risk"])],
        .error ("Tab '[Optimizely] QA Pass 1' not found in sheet")⟩ :=
  (c7_unresolvable_tab [⟨"Complexity & Risk", 0⟩] "[Optimizely] QA Pass 1" ["g"]
    (by decide) (by decide) (by decide)).1

/- ### Claims C8 and C9: tab pruning -/

/-- C8: when no existing tab is the selected platform tab — no exact title
match and no title containing the selected platform token — pruning schedules
nothing, issues no call, and returns success as a no-op. -/
theorem c8_prune_noop_when_unlocatable (tabs : List Tab) (selected : String)
    (h : ∀ t ∈ tabs, t.title ≠ selected ∧
      Option.all (fun tk => !containsCI t.title tk) (selectedTokenOf selected) = true) :
    prune_platform_tabs tabs selected = ⟨[], true⟩ := by
  have hany : tabs.any (matchesSelected selected) = false := by
    rw [List.any_eq_false]
    intro t ht
    obtain ⟨h1, h2⟩ := h t ht
    rw [matchesSelected]
    cases hsel : selectedTokenOf selected with
    | none => simp [h1]
    | some tk =>
      rw [hsel] at h2
      simp only [Option.all_some, Bool.not_eq_true'] at h2
      simp [h1, h2]
  rw [prune_platform_tabs, hany]
  rfl

/-- Witness for C8 at the spec's scenario D: pruning with selection
`"[Optimizely] QA Pass 1"` while no Optimizely tab exists leaves every tab
in place and reports success. -/
theorem c8_prune_noop_when_unlocatable_witness :
    prune_platform_tabs [⟨"Complexity & Risk", 0⟩, ⟨"[VWO] QA Pass 1", 1⟩]
      "[Optimizely] QA Pass 1" = ⟨[], true⟩ :=
  c8_prune_noop_when_unlocatable
    [⟨"Complexity & Risk", 0⟩, ⟨"[VWO] QA Pass 1", 1⟩]
    "[Optimizely] QA Pass 1" (by decide)

theorem deleteReqs_of_map (ds : List Tab) :
    deleteReqs [.batchUpdate (ds.map (fun t => .deleteSheet t.sheetId))] =
      ds.map (·.sheetId) := by
  simp only [deleteReqs, List.flatMap_cons, List.flatMap_nil, List.append_nil]
  induction ds with
  | nil => rfl
  | cons d rest ih => simpa [List.map_cons, List.filterMap_cons] using ih

/-- C9: pruning never schedules a deletion for the tab titled
`Complexity & Risk`, for the tab titled exactly as the selection, or for any
tab whose title contains the selected platform token case-insensitively; and
the issued `deleteSheet` requests are either nothing or exactly the scheduled
tabs' ids. -/
theorem c9_prune_protected (tabs : List Tab) (selected : String) :
    (pruneScheduled tabs selected).all (fun t =>
      !(t.title == "Complexity & Risk") && !(t.title == selected) &&
      Option.all (fun tk => !containsCI t.title tk) (selectedTokenOf selected)) =
      true ∧
    (deleteReqs (prune_platform_tabs tabs selected).calls = [] ∨
      deleteReqs (prune_platform_tabs tabs selected).calls =
        (pruneScheduled tabs selected).map (·.sheetId)) := by
  constructor
  · rw [List.all_eq_true]
    intro t ht
    have hp := List.of_mem_filter ht
    cases hsel : selectedTokenOf selected with
    | none =>
      rw [hsel] at hp
      simp only [Bool.and_eq_true, Bool.not_eq_true', Bool.or_eq_false_iff,
        decide_eq_false_iff_not] at hp
      simp [Option.all_none, hp.1.1.2, hp.1.1.1]
    | some tk =>
      rw [hsel] at hp
      simp only [Bool.and_eq_true, Bool.not_eq_true', Bool.or_eq_false_iff,
        decide_eq_false_iff_not] at hp
      simp [Option.all_some, hp.1.1.2, hp.1.1.1, hp.2]
  · rw [prune_platform_tabs]
    by_cases hany : tabs.any (matchesSelected selected) = true
    · rw [hany]
      by_cases hds : (pruneScheduled tabs selected).isEmpty = true
      · simp only [Bool.not_true, Bool.false_eq_true, if_false, hds, if_true]
        left
        rfl
      · simp only [Bool.not_true, Bool.false_eq_true, if_false,
          Bool.not_eq_true] at hds ⊢
        rw [if_neg (by simp [hds])]
        right
        exact deleteReqs_of_map _
    · simp only [Bool.not_eq_true] at hany
      rw [hany]
      left
      rfl

/- ### Goal segmentation — modelled from the spec -/

/-- Modelled from the spec: the goal segmenter (`parse_goals_field`) is not
part of the provided sources (only its call site in `app.py` is), so the
marker pattern is taken from §4.2 of the spec: "integer, period, whitespace".
`countLeadingDigits` counts the maximal run of leading digits. -/
def countLeadingDigits : List Char → Nat
  | [] => 0
  | c :: cs => if c.isDigit then countLeadingDigits cs + 1 else 0

/-- Modelled from the spec: the length of a goal-start marker beginning at the
head of `l` — one or more digits, a period, then a whitespace character —
or `none` when no marker starts here. -/
def markerLen (l : List Char) : Option Nat :=
  let d := countLeadingDigits l
  if d = 0 then none
  else
    match l.drop d with
    | '.' :: c :: _ => if c.isWhitespace then some (d + 2) else none
    | _ => none

/-- Whether a goal-start marker occurs at position `i` of the text. -/
def markerAt (s : String) (i : Nat) : Bool := (markerLen (s.data.drop i)).isSome

/-- Modelled from the spec: scan the text left to right collecting the
starting positions of all (non-overlapping) goal-start markers; after a
match the scan resumes at the match's end (`skip` pending characters). -/
def mposAux : List Char → Nat → Nat → List Nat
  | [], _, _ => []
  | _ :: cs, i, k + 1 => mposAux cs (i + 1) k
  | l@(_ :: cs), i, 0 =>
    match markerLen l with
    | some n => i :: mposAux cs (i + 1) (n - 1)
    | none => mposAux cs (i + 1) 0

/-- All goal-start marker positions of the text, in order. -/
def markerPositions (s : String) : List Nat := mposAux s.data 0 0

/-- The substring of `l` spanning positions `[a, b)`. -/
def sliceStr (l : List Char) (a b : Nat) : String := ⟨(l.drop a).take (b - a)⟩

/-- Modelled from the spec: each goal's body runs from its marker up to (but
not including) the next marker, the last one up to end of text (`L`). -/
def bodiesFrom (L : Nat) (l : List Char) : List Nat → List String
  | [] => []
  | [p] => [sliceStr l p L]
  | p :: q :: rest => sliceStr l p q :: bodiesFrom L l (q :: rest)

/-- The captured goal bodies of the text, in source order. -/
def goalBodies (s : String) : List String :=
  bodiesFrom s.data.length s.data (markerPositions s)

/-- Modelled from the spec: strip the leading `"N. "` marker (digits, period,
one whitespace character) from a captured body. -/
def stripMarker (b : String) : String :=
  match markerLen b.data with
  | some n => ⟨b.data.drop n⟩
  | none => b

/-- A body after marker stripping and whitespace trimming. -/
def cleanGoal (b : String) : String := pyStrip (stripMarker b)

/-- Modelled from the spec: `segment` — locate the markers, capture each
body, strip its marker, trim whitespace, and drop entries that became
empty. -/
def segment_goals (s : String) : List String :=
  ((goalBodies s).map cleanGoal).filter (· ≠ "")

theorem mposAux_nil_of_no_marker :
    ∀ (l : List Char) (i : Nat),
      (∀ j < l.length, markerLen (l.drop j) = none) → mposAux l i 0 = [] := by
  intro l
  induction l with
  | nil => intro i _; rfl
  | cons c cs ih =>
    intro i h
    have h0 : markerLen (c :: cs) = none := by
      have := h 0 (by simp)
      simpa using this
    rw [mposAux, h0]
    exact ih (i + 1) (fun j hj => by
      have := h (j + 1) (by simpa using Nat.succ_lt_succ hj)
      simpa using this)

theorem bodiesFrom_length (L : Nat) (l : List Char) :
    ∀ ps : List Nat, (bodiesFrom L l ps).length = ps.length := by
  intro ps
  induction ps with
  | nil => rfl
  | cons p rest ih =>
    cases rest with
    | nil => rfl
    | cons q more =>
      rw [bodiesFrom]
      simpa using ih

/-- C1: over the spec-modelled segmenter — a text with no
"integer, period, whitespace" marker anywhere segments to the empty list;
and when no captured entry trims to empty, `segment` returns exactly one
entry per marker (`N` markers give `N` goals), in source order, each the
marker-to-next-marker body with its leading `"N. "` marker stripped and
whitespace trimmed. -/
theorem c1_segment_spec (s : String) :
    ((∀ i < s.data.length, markerAt s i = false) → segment_goals s = []) ∧
    ((∀ b ∈ goalBodies s, cleanGoal b ≠ "") →
      segment_goals s = (goalBodies s).map cleanGoal ∧
      (segment_goals s).length = (markerPositions s).length) := by
  constructor
  · intro h
    have hpos : markerPositions s = [] := by
      rw [markerPositions]
      refine mposAux_nil_of_no_marker s.data 0 (fun j hj => ?_)
      have := h j hj
      rw [markerAt] at this
      exact Option.not_isSome_iff_eq_none.mp (by simp [this])
    rw [segment_goals, goalBodies, hpos]
    rfl
  · intro h
    have heq : segment_goals s = (goalBodies s).map cleanGoal := by
      rw [segment_goals, List.filter_eq_self]
      intro b hb
      rcases List.mem_map.mp hb with ⟨x, hx, rfl⟩
      simpa using h x hx
    refine ⟨heq, ?_⟩
    rw [heq, List.length_map, goalBodies, bodiesFrom_length]

/-- Witness for C1: a marker-free text segments to `[]`; the spec's scenario
A text segments to its two stripped goals. -/
theorem c1_segment_spec_witness :
    segment_goals "no markers here" = [] ∧
    segment_goals "1. Improve load time\n2. Reduce errors" =
      ["Improve load time", "Reduce errors"] := by
  constructor
  · exact (c1_segment_spec "no markers here").1 (by decide)
  · have h := (c1_segment_spec "1. Improve load time\n2. Reduce errors").2 (by decide)
    rw [h.1]
    decide
